import Mathlib

/-!
Verification of the restic SFTP backend (`src/restic/backend/sftp/sftp.go`)
against its natural-language specification.

The embedding models:
* Go's `path.Clean` / `path.Join` (POSIX forward-slash join-and-clean
  semantics, used by the backend for every remote path);
* the path layout (`filename` / `dirname`, sharding for data files);
* the store operations `Save`, `Load`, `Stat`, `Test`, `Remove`, the
  recursive directory creation `mkdirAll`, the skeleton check of `Open`,
  the `List` enumeration and `Close` — over an explicit remote-filesystem
  state (an association list from remote paths to entries) together with a
  log of the remote calls each operation issues.

Remote-call failures that cannot be produced by the pure filesystem state
(a dead subprocess, a failing seek, the responses seen by a racy
`mkdirAll`) are passed in as explicit oracle arguments, mirroring exactly
where the Go code consumes the corresponding result.
-/

namespace Sftp

/-! ### Go `path.Clean`, modelled on `List Char`

`path.Clean` resolves a slash-separated path: empty and `.` segments are
dropped, `..` pops the previous segment (or is kept at the front of a
relative path, or dropped at the root of an absolute path).  We model it
by splitting on `/`, folding the segments through a stack, and rendering
the stack back to a path. -/

/-- Split a character list on `'/'` (semantics of Go `strings.Split`
with separator `"/"`): the empty list yields one empty segment. -/
def splitSlash : List Char → List (List Char)
  | [] => [[]]
  | c :: rest =>
    if c = '/' then [] :: splitSlash rest
    else
      match splitSlash rest with
      | s :: tail => (c :: s) :: tail
      | [] => [[c]]

/-- One step of `path.Clean`'s segment processing: push a segment onto the
stack of resolved segments (head = most recent). -/
def cleanPush (rooted : Bool) (stack : List (List Char)) (s : List Char) :
    List (List Char) :=
  if s = [] then stack
  else if s = ['.'] then stack
  else if s = ['.', '.'] then
    match stack with
    | [] => if rooted then [] else [['.', '.']]
    | t :: rest => if t = ['.', '.'] then ['.', '.'] :: t :: rest else rest
  else s :: stack

/-- Whether a path starts with `'/'`. -/
def isRooted (cs : List Char) : Bool := cs.head? == some '/'

/-- Join segments with `'/'` (semantics of Go `strings.Join` with
separator `"/"`). -/
def joinSegs : List (List Char) → List Char
  | [] => []
  | [s] => s
  | s :: ss => s ++ '/' :: joinSegs ss

/-- Render the resolved stack back into a cleaned path. -/
def renderClean (rooted : Bool) (stack : List (List Char)) : List Char :=
  if rooted then '/' :: joinSegs stack.reverse
  else if stack = [] then ['.'] else joinSegs stack.reverse

/-- Go `path.Clean` on character lists. -/
def cleanChars (cs : List Char) : List Char :=
  if cs = [] then ['.']
  else
    renderClean (isRooted cs)
      ((splitSlash cs).foldl (cleanPush (isRooted cs)) [])

/-- Go `path.Clean` on strings. -/
def goClean (s : String) : String := String.mk (cleanChars s.data)

/-- The slash-joined concatenation underlying Go `path.Join`
(`strings.Join(elem, "/")`). -/
def strJoinSlash : List String → List Char
  | [] => []
  | [s] => s.data
  | s :: ss => s.data ++ '/' :: strJoinSlash ss

/-- Go `path.Join`: drop leading empty components, join the rest with
slashes, and clean the result; all components empty yields `""`. -/
def goJoin (elem : List String) : String :=
  match elem.dropWhile (fun e => e == "") with
  | [] => ""
  | rest => String.mk (cleanChars (strJoinSlash rest))

/-- `sftp.Join` from the source: `path.Clean(path.Join(parts...))`. -/
def Join (parts : List String) : String := goClean (goJoin parts)

/-- The prefix of a path up to and including its last `'/'` (empty when
the path has no slash) — the portion Go `path.Split` calls `dir`. -/
def dropAfterLastSlash (cs : List Char) : List Char :=
  (cs.reverse.dropWhile (fun c => c != '/')).reverse

/-- Go `path.Dir`: the cleaned directory portion of a path. -/
def goDir (s : String) : String :=
  String.mk (cleanChars (dropAfterLastSlash s.data))

example : goClean "/r//data/../x/." = "/r/x" := by decide
example : goClean "" = "." := by decide
example : goClean "a/.." = "." := by decide
example : goClean "../../a" = "../../a" := by decide
example : goClean "/.." = "/" := by decide
example : Join ["/r", "data", "ab", "abcdef"] = "/r/data/ab/abcdef" := by decide
example : Join ["", "data"] = "data" := by decide
example : Join ["", ""] = "." := by decide
example : goDir "/r/data/ab" = "/r/data" := by decide
example : goDir "x" = "." := by decide
example : goDir "/x" = "/" := by decide

/-! ### Data model -/

/-- Modelled from the spec: `restic.FileType` is a string-valued type with
one constant per collection type (the type itself is defined outside
`src/`; the spec fixes the six collection types). -/
abbrev FileType := String

/-- Modelled from the spec: the Data collection type. -/
def DataFile : FileType := "data"

/-- Modelled from the spec: the Snapshot collection type. -/
def SnapshotFile : FileType := "snapshot"

/-- Modelled from the spec: the Index collection type. -/
def IndexFile : FileType := "index"

/-- Modelled from the spec: the Lock collection type. -/
def LockFile : FileType := "lock"

/-- Modelled from the spec: the Key collection type. -/
def KeyFile : FileType := "key"

/-- Modelled from the spec: the Config collection type. -/
def ConfigFile : FileType := "config"

/-- `restic.Handle`: a collection type together with a name. -/
structure Handle where
  type : FileType
  name : String
deriving DecidableEq

/-- Go error values that flow through the backend: a plain message
(`errors.New` / `errors.Errorf`), a rendered `sftp.StatusError`, the
`os.ErrNotExist` class recognised by `os.IsNotExist`, or a wrapped error
(`errors.Wrap(err, op)`). -/
inductive GoErr where
  | msg (s : String)
  | statusErr (s : String)
  | osErrNotExist
  | wrapped (op : String) (e : GoErr)
deriving DecidableEq

deriving instance DecidableEq for Except

/-- `errors.Cause`: strip `errors.Wrap` layers. -/
def cause : GoErr → GoErr
  | .wrapped _ e => cause e
  | e => e

/-- Go `os.IsNotExist`: true exactly for the `os.ErrNotExist` class (a
raw `*sftp.StatusError` is not in that class). -/
def osIsNotExist : GoErr → Bool
  | .osErrNotExist => true
  | _ => false

/-- `SFTP.IsNotExist` from the source: type-assert the error to
`*sftp.StatusError` (no unwrapping) and compare its rendered message with
the SSH "No such file" status line. -/
def IsNotExist (e : GoErr) : Bool :=
  match e with
  | .statusErr s => s = "sftp: \"No such file\" (SSH_FX_NO_SUCH_FILE)"
  | _ => false

/-- Modelled from the spec: `restic.Handle.Valid` (defined outside
`src/`): the type must be one of the six collection types and the name
must be non-empty except for Config. -/
def Handle.Valid (h : Handle) : Option GoErr :=
  if h.type = "" then some (.msg "type is empty")
  else if h.type = DataFile ∨ h.type = SnapshotFile ∨ h.type = IndexFile ∨
      h.type = LockFile ∨ h.type = KeyFile ∨ h.type = ConfigFile then
    if h.type = ConfigFile then none
    else if h.name = "" then some (.msg "invalid Name")
    else none
  else some (.msg "invalid Type")

/-- A remote filesystem entry: either a directory or a file with byte
content, together with its permission mode bits. -/
structure Entry where
  isDir : Bool
  content : List Nat
  mode : Nat
deriving DecidableEq

/-- The remote filesystem, keyed by the exact remote path string. -/
abbrev FS := List (String × Entry)

/-- Look up a remote path. -/
def lookupFS (fs : FS) (p : String) : Option Entry :=
  (fs.find? (fun kv => kv.1 == p)).map (fun kv => kv.2)

/-- Create or overwrite a remote entry. -/
def setFS (fs : FS) (p : String) (e : Entry) : FS :=
  (p, e) :: fs.filter (fun kv => !(kv.1 == p))

/-- Delete a remote entry. -/
def removeFS (fs : FS) (p : String) : FS :=
  fs.filter (fun kv => !(kv.1 == p))

/-- The remote calls an operation can issue, with their target paths. -/
inductive Op where
  | lstat (p : String)
  | mkdir (p : String)
  | chmod (p : String)
  | openfile (p : String)
  | openR (p : String)
  | write (p : String)
  | closeF (p : String)
  | seek (p : String)
  | remove (p : String)
  | readdir (p : String)
deriving DecidableEq

/-! ### Path layout (`SFTP.filename` / `SFTP.dirname`) -/

/-- Modelled from the spec: `backend.Paths` (defined outside `src/`), the
names of the skeleton subdirectories, §6 of the spec. -/
def PathsData : String := "data"

/-- Modelled from the spec: the snapshots subdirectory name. -/
def PathsSnapshots : String := "snapshots"

/-- Modelled from the spec: the index subdirectory name. -/
def PathsIndex : String := "index"

/-- Modelled from the spec: the locks subdirectory name. -/
def PathsLocks : String := "locks"

/-- Modelled from the spec: the keys subdirectory name. -/
def PathsKeys : String := "keys"

/-- Modelled from the spec: the temp subdirectory name. -/
def PathsTemp : String := "temp"

/-- Modelled from the spec: `backend.Modes.Dir`, the directory permission
mode set by `mkdirAll` (defined outside `src/`; its exact value is
irrelevant to the claims). -/
def ModesDir : Nat := 0o700

/-- `SFTP.dirname`: the collection directory for a handle, with the
two-character shard subdirectory for data names longer than two
characters. -/
def dirname (p : String) (h : Handle) : String :=
  let n : String :=
    if h.type = DataFile then
      if h.name.length > 2 then Join [PathsData, h.name.take 2] else PathsData
    else if h.type = SnapshotFile then PathsSnapshots
    else if h.type = IndexFile then PathsIndex
    else if h.type = LockFile then PathsLocks
    else if h.type = KeyFile then PathsKeys
    else ""
  Join [p, n]

/-- `SFTP.filename`: the remote path for a handle. -/
def filename (p : String) (h : Handle) : String :=
  if h.type = ConfigFile then Join [p, "config"]
  else Join [dirname p h, h.name]

/-- Modelled from the spec: the default layout's `Filename` (the layout
collaborator is defined outside `src/`; per §4.2 the default naming
scheme is exactly the path function above). `Save` resolves paths through
the layout while `Load` uses `SFTP.filename` directly. -/
def Filename (p : String) (h : Handle) : String := filename p h

/-- `paths` from the source: the skeleton entries checked by `Open` and
created by `Create`. -/
def paths (dir : String) : List String :=
  [dir,
   Join [dir, PathsData],
   Join [dir, PathsSnapshots],
   Join [dir, PathsIndex],
   Join [dir, PathsLocks],
   Join [dir, PathsKeys],
   Join [dir, PathsTemp]]

example : filename "/r" ⟨DataFile, "abcdef"⟩ = "/r/data/ab/abcdef" := by decide
example : filename "/r" ⟨DataFile, "ab"⟩ = "/r/data/ab" := by decide
example : filename "/r" ⟨ConfigFile, "ignored"⟩ = "/r/config" := by decide
example : filename "/r" ⟨SnapshotFile, "x"⟩ = "/r/snapshots/x" := by decide
example : filename "/r" ⟨DataFile, ""⟩ = "/r/data" := by decide

/-! ### Store operations

The subprocess exit channel is modelled by `chanVal`: `none` when the
channel is empty, `some e` when the background `cmd.Wait` goroutine has
deposited the terminal error `e` (itself `none` for a clean exit). -/

/-- `SFTP.clientError`: non-blocking receive from the exit channel. -/
def clientError (chanVal : Option (Option GoErr)) : Option GoErr :=
  chanVal.getD none

/-- The mode of a file created through `OpenFile` (the server-side
default; its exact value is irrelevant to the claims). -/
def createdFileMode : Nat := 0o644

/-- `fi.Mode() & ^uint32(0222)`: strip all write-permission bits. -/
def stripWrite (m : Nat) : Nat := m &&& (4294967295 - 0o222)

/-- The status a server returns when an `O_EXCL` create hits an existing
path. -/
def openExclErr : GoErr := .statusErr "sftp: \"Failure\" (SSH_FX_FAILURE)"

/-- The status a server returns when opening a missing file. -/
def noSuchFileErr : GoErr :=
  .statusErr "sftp: \"No such file\" (SSH_FX_NO_SUCH_FILE)"

/-- `SFTP.mkdirAll` over the filesystem state: stat the target (done if
it is already a directory, error if it exists as a non-directory);
otherwise recursively ensure the parent, attempt `Mkdir`, then re-stat
and trust only the re-stat, finally chmod.  The Go recursion descends
through `path.Dir`; `fuel` bounds that depth (any fuel larger than the
nesting depth reproduces the source behaviour). -/
def mkdirAll (fuel : Nat) (fs : FS) (dir : String) (mode : Nat) :
    Option GoErr × FS × List Op :=
  match fuel with
  | 0 => (some (.msg "mkdirAll: recursion limit"), fs, [])
  | fuel' + 1 =>
    match lookupFS fs dir with
    | some fi =>
      if fi.isDir then (none, fs, [Op.lstat dir])
      else (some (.msg ("mkdirAll(" ++ dir ++ "): entry exists but is not a directory")),
            fs, [Op.lstat dir])
    | none =>
      let rec1 := mkdirAll fuel' fs (goDir dir) ModesDir
      let fs1 := rec1.2.1
      let mk : Option GoErr × FS :=
        match lookupFS fs1 dir with
        | some _ => (some openExclErr, fs1)
        | none =>
          match lookupFS fs1 (goDir dir) with
          | some fi =>
            if fi.isDir then (none, setFS fs1 dir ⟨true, [], 0o755⟩)
            else (some noSuchFileErr, fs1)
          | none => (some noSuchFileErr, fs1)
      let fs2 := mk.2
      let log := Op.lstat dir :: rec1.2.2 ++ [Op.mkdir dir, Op.lstat dir]
      match lookupFS fs2 dir with
      | none =>
        (some (.msg ("mkdirAll(" ++ dir ++ "): unable to create directories")), fs2, log)
      | some fi =>
        if fi.isDir then (none, setFS fs2 dir ⟨true, fi.content, mode⟩, log ++ [Op.chmod dir])
        else (some (.msg ("mkdirAll(" ++ dir ++ "): entry exists but is not a directory")),
              fs2, log)

/-- `SFTP.mkdirAll` with the responses of the remote calls (and of the
recursive parent call) passed in explicitly, for reasoning about runs in
which a concurrent caller changes the remote filesystem between calls:
`stat1` is the initial `Lstat`, `errMkdirAll` the recursive parent
result, `errMkdir` the `Mkdir` result, `stat2` the re-stat, `chmodErr`
the final `Chmod` result. -/
def mkdirAllR (stat1 : Except GoErr Entry) (errMkdirAll : Option GoErr)
    (errMkdir : Option GoErr) (stat2 : Except GoErr Entry)
    (chmodErr : Option GoErr) : Option GoErr :=
  match stat1 with
  | .ok fi =>
    if fi.isDir then none
    else some (.msg "mkdirAll: entry exists but is not a directory")
  | .error _ =>
    match errMkdirAll, errMkdir with
    | _, _ =>
      match stat2 with
      | .error _ => some (.msg "mkdirAll: unable to create directories")
      | .ok fi =>
        if fi.isDir then chmodErr
        else some (.msg "mkdirAll: entry exists but is not a directory")

/-- `SFTP.Save`: health check, handle validation, shard-directory
creation for data files, exclusive create, write, close, then re-stat
and chmod the result read-only. -/
def SaveF (chanVal : Option (Option GoErr)) (fs : FS) (p : String)
    (h : Handle) (rd : List Nat) : Option GoErr × FS × List Op :=
  match clientError chanVal with
  | some e => (some e, fs, [])
  | none =>
    match h.Valid with
    | some e => (some e, fs, [])
    | none =>
      let fn := Filename p h
      let md :=
        if h.type = DataFile then
          mkdirAll ((goDir fn).length + 2) fs (goDir fn) ModesDir
        else (none, fs, [])
      match md.1 with
      | some e => (some e, md.2.1, md.2.2)
      | none =>
        let fs1 := md.2.1
        match lookupFS fs1 fn with
        | some _ =>
          (some (GoErr.wrapped "OpenFile" openExclErr), fs1, md.2.2 ++ [Op.openfile fn])
        | none =>
          let fs2 := setFS fs1 fn ⟨false, [], createdFileMode⟩
          let fs3 := setFS fs2 fn ⟨false, rd, createdFileMode⟩
          let fs4 := setFS fs3 fn ⟨false, rd, stripWrite createdFileMode⟩
          (none, fs4,
           md.2.2 ++ [Op.openfile fn, Op.write fn, Op.closeF fn, Op.lstat fn, Op.chmod fn])

/-- `SFTP.Load`: handle validation, negative-offset rejection, open,
optional seek (whose remote response is the oracle `seekErr`; on a seek
failure the file is closed and the error returned), and a stream bounded
to `length` bytes when `length > 0`.  The result is the full contents
the returned reader yields. -/
def Load (seekErr : Option GoErr) (fs : FS) (p : String) (h : Handle)
    (length : Int) (offset : Int) : Except GoErr (List Nat) × List Op :=
  match h.Valid with
  | some e => (.error e, [])
  | none =>
    if offset < 0 then (.error (.msg "offset is negative"), [])
    else
      let fn := filename p h
      match lookupFS fs fn with
      | none => (.error noSuchFileErr, [Op.openR fn])
      | some fi =>
        if offset > 0 then
          match seekErr with
          | some e => (.error e, [Op.openR fn, Op.seek fn, Op.closeF fn])
          | none =>
            let bs := fi.content.drop offset.toNat
            (.ok (if length > 0 then bs.take length.toNat else bs),
             [Op.openR fn, Op.seek fn])
        else
          (.ok (if length > 0 then fi.content.take length.toNat else fi.content),
           [Op.openR fn])

/-- `SFTP.Stat`: health check, handle validation, `Lstat`, returning the
entry's size; a stat failure is wrapped with `"Lstat"` (`nfErr` is the
status the server reports for the missing path). -/
def StatF (chanVal : Option (Option GoErr)) (fs : FS) (p : String)
    (h : Handle) (nfErr : GoErr) : Except GoErr Nat × List Op :=
  match clientError chanVal with
  | some e => (.error e, [])
  | none =>
    match h.Valid with
    | some e => (.error e, [])
    | none =>
      let fn := filename p h
      match lookupFS fs fn with
      | none => (.error (GoErr.wrapped "Lstat" nfErr), [Op.lstat fn])
      | some fi => (.ok fi.content.length, [Op.lstat fn])

/-- `SFTP.Test` over the filesystem state: health check, then `Lstat`
directly (no handle validation in the source); a missing path produces
the server status `nfErr`, classified with `os.IsNotExist` on its cause. -/
def TestF (chanVal : Option (Option GoErr)) (fs : FS) (p : String)
    (h : Handle) (nfErr : GoErr) : (Bool × Option GoErr) × List Op :=
  match clientError chanVal with
  | some e => ((false, some e), [])
  | none =>
    let fn := filename p h
    match lookupFS fs fn with
    | some _ => ((true, none), [Op.lstat fn])
    | none =>
      if osIsNotExist (cause nfErr) then ((false, none), [Op.lstat fn])
      else ((false, some (GoErr.wrapped "Lstat" nfErr)), [Op.lstat fn])

/-- `SFTP.Test` with the `Lstat` response passed in explicitly (`none` =
success): mirrors the source's classification of the stat failure. -/
def TestR (chanVal : Option (Option GoErr)) (statRes : Option GoErr) :
    Bool × Option GoErr :=
  match clientError chanVal with
  | some e => (false, some e)
  | none =>
    match statRes with
    | some err =>
      if osIsNotExist (cause err) then (false, none)
      else (false, some (GoErr.wrapped "Lstat" err))
    | none => (true, none)

/-- `SFTP.Remove`: health check, then `Remove` directly (no handle
validation in the source); the remote error propagates unwrapped. -/
def RemoveF (chanVal : Option (Option GoErr)) (fs : FS) (p : String)
    (h : Handle) (nfErr : GoErr) : Option GoErr × FS × List Op :=
  match clientError chanVal with
  | some e => (some e, fs, [])
  | none =>
    let fn := filename p h
    match lookupFS fs fn with
    | some _ => (none, removeFS fs fn, [Op.remove fn])
    | none => (some nfErr, fs, [Op.remove fn])

/-- The `Lstat` loop of `Open` over the skeleton entries: the first
missing entry aborts with an error naming it. -/
def lstatLoop (fs : FS) : List String → Option GoErr
  | [] => none
  | d :: rest =>
    if (lookupFS fs d).isSome then lstatLoop fs rest
    else some (.msg (d ++ " does not exist"))

/-- The skeleton pre-existence check performed by `Open` (after the
subprocess start and handshake, which are not part of the claims). -/
def openCheck (fs : FS) (dir : String) : Option GoErr := lstatLoop fs (paths dir)

/-- `SFTP.List`: the full sequence of names the listing goroutine emits
when the consumer never cancels.  `readDir` is the remote `ReadDir`
response (`none` = error).  For data, the shard level is enumerated
first; a failing shard is skipped; a failing top-level enumeration ends
the sequence with no items. -/
def ListB (t : FileType) (p : String) (readDir : String → Option (List String)) :
    List String :=
  if t = DataFile then
    let basedir := dirname p ⟨t, ""⟩
    match readDir basedir with
    | none => []
    | some dirs =>
      dirs.foldr (fun d acc =>
        (match readDir (Join [basedir, d]) with
         | none => []
         | some entries => entries) ++ acc) []
  else
    match readDir (dirname p ⟨t, ""⟩) with
    | none => []
    | some entries => entries

/-- The six collection types of the spec's data model. -/
def sixTypes : List FileType :=
  [DataFile, SnapshotFile, IndexFile, LockFile, KeyFile, ConfigFile]

/-- The path layout exactly as the spec states it (§4.2/§3): `root/config`
for Config with the name ignored; `root/data/<first-2-chars>/<name>` for
Data names longer than two characters; `root/data/<name>` for short Data
names; `root/<typeDir>/<name>` for the other four types — all with POSIX
join-and-clean semantics. -/
def claimPath (p : String) (h : Handle) : String :=
  if h.type = ConfigFile then Join [p, "config"]
  else if h.type = DataFile then
    if h.name.length > 2 then Join [p, "data", h.name.take 2, h.name]
    else Join [p, "data", h.name]
  else if h.type = SnapshotFile then Join [p, "snapshots", h.name]
  else if h.type = IndexFile then Join [p, "index", h.name]
  else if h.type = LockFile then Join [p, "locks", h.name]
  else Join [p, "keys", h.name]

/-- A segment that `cleanPush` always pushes: non-empty and not `"."`
(`".."` is singled out separately where needed). -/
def goodSeg (s : List Char) : Prop := s ≠ [] ∧ s ≠ ['.'] ∧ '/' ∉ s

/-- Invariant of the `path.Clean` segment stack (head = most recent):
`".."` entries form the bottom of the stack, everything above them is a
plain segment, and an absolute path never retains `".."`. -/
def OkStack (rooted : Bool) (st : List (List Char)) : Prop :=
  ∃ front k, st = front ++ List.replicate k ['.', '.'] ∧
    (∀ s ∈ front, goodSeg s ∧ s ≠ ['.', '.']) ∧ (rooted = true → k = 0)

/-- `SFTP.Close`: no-op on a nil receiver; otherwise close the session
(whose error `closeErr` the source assigns but never returns), wait up to
the timeout for the exit channel (`resultArrived` is `some e` when the
exit signal carrying `e` arrives in time), else kill the subprocess and
return the kill error, or `nil` after draining the channel. -/
def CloseB (isNil : Bool) (closeErr : Option GoErr)
    (resultArrived : Option (Option GoErr)) (killErr : Option GoErr) :
    Option GoErr :=
  if isNil then none
  else
    match closeErr with
    | _ =>
      match resultArrived with
      | some e => e
      | none =>
        match killErr with
        | some e => some e
        | none => none

/-! ### Lemmas about `path.Clean` segments -/

theorem splitSlash_ne_nil (cs : List Char) : splitSlash cs ≠ [] := by
  cases cs with
  | nil => simp [splitSlash]
  | cons c rest =>
    simp only [splitSlash]
    split
    · simp
    · split <;> simp

theorem splitSlash_append (a b : List Char) :
    splitSlash (a ++ '/' :: b) = splitSlash a ++ splitSlash b := by
  induction a with
  | nil => simp [splitSlash]
  | cons c a ih =>
    by_cases hc : c = '/'
    · subst hc
      simp [splitSlash, ih]
    · obtain ⟨s, tail, h⟩ : ∃ s tail, splitSlash a = s :: tail := by
        cases h : splitSlash a with
        | nil => exact absurd h (splitSlash_ne_nil a)
        | cons s tail => exact ⟨s, tail, rfl⟩
      simp only [List.cons_append, splitSlash, if_neg hc, List.append_eq, ih, h,
        List.cons_append]

theorem splitSlash_no_slash (cs : List Char) : ∀ s ∈ splitSlash cs, '/' ∉ s := by
  induction cs with
  | nil => simp [splitSlash]
  | cons c rest ih =>
    by_cases hc : c = '/'
    · subst hc
      simp only [splitSlash, if_pos rfl]
      intro s hs
      rcases List.mem_cons.mp hs with rfl | hs'
      · simp
      · exact ih s hs'
    · simp only [splitSlash, if_neg hc]
      cases h : splitSlash rest with
      | nil => exact absurd h (splitSlash_ne_nil rest)
      | cons s0 tail =>
        intro s hs
        rcases List.mem_cons.mp hs with rfl | hs'
        · intro hmem
          rcases List.mem_cons.mp hmem with h' | h'
          · exact hc h'.symm
          · exact ih s0 (h ▸ List.mem_cons_self s0 tail) h'
        · exact ih s (h ▸ List.mem_cons_of_mem s0 hs')

theorem splitSlash_eq_single (s : List Char) (h : '/' ∉ s) : splitSlash s = [s] := by
  induction s with
  | nil => simp [splitSlash]
  | cons c rest ih =>
    have hc : c ≠ '/' := fun e => h (e ▸ List.mem_cons_self c rest)
    have hr : '/' ∉ rest := fun m => h (List.mem_cons_of_mem c m)
    simp [splitSlash, hc, ih hr]

theorem splitSlash_joinSegs (segs : List (List Char)) (hne : segs ≠ [])
    (hs : ∀ s ∈ segs, '/' ∉ s) : splitSlash (joinSegs segs) = segs := by
  induction segs with
  | nil => exact absurd rfl hne
  | cons s rest ih =>
    cases rest with
    | nil => exact splitSlash_eq_single s (hs s (by simp))
    | cons t tail =>
      have : joinSegs (s :: t :: tail) = s ++ '/' :: joinSegs (t :: tail) := rfl
      rw [this, splitSlash_append, splitSlash_eq_single s (hs s (by simp)),
        ih (by simp) (fun x hx => hs x (List.mem_cons_of_mem s hx))]
      rfl

/-! ### Lemmas about the segment stack -/

theorem cleanPush_nil (r : Bool) (st : List (List Char)) : cleanPush r st [] = st := by
  simp [cleanPush]

theorem cleanPush_dot (r : Bool) (st : List (List Char)) : cleanPush r st ['.'] = st := by
  simp [cleanPush]

theorem cleanPush_push (r : Bool) (st : List (List Char)) {s : List Char}
    (h1 : s ≠ []) (h2 : s ≠ ['.']) (h3 : s ≠ ['.', '.']) :
    cleanPush r st s = s :: st := by
  simp [cleanPush, h1, h2, h3]

theorem cleanPush_dots (j : Nat) :
    cleanPush false (List.replicate j ['.', '.']) ['.', '.']
      = List.replicate (j + 1) ['.', '.'] := by
  cases j with
  | zero => simp [cleanPush]
  | succ j => simp [cleanPush, List.replicate_succ]

theorem okStack_nil (r : Bool) : OkStack r [] :=
  ⟨[], 0, by simp, by simp, fun _ => rfl⟩

theorem okStack_mem {r : Bool} {st : List (List Char)} (h : OkStack r st) :
    ∀ s ∈ st, s ≠ [] ∧ '/' ∉ s := by
  obtain ⟨front, k, rfl, hf, -⟩ := h
  intro s hs
  rcases List.mem_append.mp hs with hs' | hs'
  · exact ⟨(hf s hs').1.1, (hf s hs').1.2.2⟩
  · have := List.eq_of_mem_replicate hs'
    subst this
    exact ⟨by simp, by simp⟩

theorem cleanPush_ok {r : Bool} {st : List (List Char)} {s : List Char}
    (hok : OkStack r st) (hs : '/' ∉ s) : OkStack r (cleanPush r st s) := by
  obtain ⟨front, k, rfl, hf, hr⟩ := hok
  by_cases h1 : s = []
  · rw [h1, cleanPush_nil]; exact ⟨front, k, rfl, hf, hr⟩
  by_cases h2 : s = ['.']
  · rw [h2, cleanPush_dot]; exact ⟨front, k, rfl, hf, hr⟩
  by_cases h3 : s = ['.', '.']
  · subst h3
    simp only [cleanPush, if_neg h1, if_neg h2, if_pos rfl]
    cases hfr : front with
    | cons f front' =>
      have hfne : f ≠ ['.', '.'] := (hf f (by simp [hfr])).2
      simp only [hfr, List.cons_append, if_neg hfne]
      exact ⟨front', k, rfl, fun x hx => hf x (by simp [hfr, hx]), hr⟩
    | nil =>
      cases k with
      | zero =>
        simp only [hfr, List.replicate, List.nil_append]
        cases r with
        | true => exact ⟨[], 0, by simp, by simp, fun _ => rfl⟩
        | false => exact ⟨[], 1, by simp [List.replicate], by simp, by simp⟩
      | succ k' =>
        simp only [hfr, List.nil_append, List.replicate_succ, if_pos rfl]
        refine ⟨[], k' + 2, ?_, by simp, ?_⟩
        · simp [List.replicate_succ]
        · intro hrt
          exact absurd (hr hrt) (by simp)
  · rw [cleanPush_push r _ h1 h2 h3]
    exact ⟨s :: front, k, rfl, by
      intro x hx
      rcases List.mem_cons.mp hx with rfl | hx'
      · exact ⟨⟨h1, h2, hs⟩, h3⟩
      · exact hf x hx', hr⟩

theorem foldl_cleanPush_ok {r : Bool} {st : List (List Char)} (hok : OkStack r st)
    (segs : List (List Char)) (hs : ∀ s ∈ segs, '/' ∉ s) :
    OkStack r (segs.foldl (cleanPush r) st) := by
  induction segs generalizing st with
  | nil => exact hok
  | cons s rest ih =>
    exact ih (cleanPush_ok hok (hs s (by simp)))
      (fun t ht => hs t (List.mem_cons_of_mem s ht))

theorem foldl_cleanPush_normal (r : Bool) (l : List (List Char))
    (st : List (List Char)) (hl : ∀ s ∈ l, goodSeg s ∧ s ≠ ['.', '.']) :
    l.foldl (cleanPush r) st = l.reverse ++ st := by
  induction l generalizing st with
  | nil => simp
  | cons s rest ih =>
    have hs := hl s (by simp)
    rw [List.foldl_cons, cleanPush_push r st hs.1.1 hs.1.2.1 hs.2,
      ih (s :: st) (fun t ht => hl t (List.mem_cons_of_mem s ht))]
    simp

theorem foldl_cleanPush_dots (k j : Nat) :
    (List.replicate k ['.', '.']).foldl (cleanPush false) (List.replicate j ['.', '.'])
      = List.replicate (j + k) ['.', '.'] := by
  induction k generalizing j with
  | zero => simp
  | succ k ih =>
    rw [List.replicate_succ, List.foldl_cons, cleanPush_dots j, ih (j + 1)]
    congr 1
    omega

theorem foldl_cleanPush_char (r : Bool) (front : List (List Char)) (k : Nat)
    (st : List (List Char)) (hf : ∀ s ∈ front, goodSeg s ∧ s ≠ ['.', '.']) :
    ((front ++ List.replicate k ['.', '.']).reverse).foldl (cleanPush r) st
      = front ++ (List.replicate k ['.', '.']).foldl (cleanPush r) st := by
  rw [List.reverse_append, List.reverse_replicate, List.foldl_append,
    foldl_cleanPush_normal r front.reverse _
      (fun s hs => hf s (List.mem_reverse.mp hs))]
  simp

theorem foldl_cleanPush_replay {r : Bool} {st : List (List Char)} (hok : OkStack r st) :
    (st.reverse).foldl (cleanPush r) [] = st := by
  obtain ⟨front, k, rfl, hf, hr⟩ := hok
  rw [foldl_cleanPush_char r front k [] hf]
  congr 1
  cases r with
  | true => rw [hr rfl]; simp
  | false =>
    have := foldl_cleanPush_dots k 0
    simpa using this

theorem cleanPush_dagger {r : Bool} (st base : List (List Char)) (s : List Char)
    (hbase : OkStack false base) (hs : '/' ∉ s) :
    ((cleanPush false base s).reverse).foldl (cleanPush r) st
      = cleanPush r ((base.reverse).foldl (cleanPush r) st) s := by
  obtain ⟨F, k, rfl, hF, -⟩ := hbase
  rw [foldl_cleanPush_char r F k st hF]
  by_cases h1 : s = []
  · rw [h1, cleanPush_nil, foldl_cleanPush_char r F k st hF, cleanPush_nil]
  by_cases h2 : s = ['.']
  · rw [h2, cleanPush_dot, foldl_cleanPush_char r F k st hF, cleanPush_dot]
  by_cases h3 : s = ['.', '.']
  · subst h3
    cases hfr : F with
    | cons f F' =>
      have hfne : f ≠ ['.', '.'] := (hF f (by simp [hfr])).2
      have hstep : cleanPush false (f :: (F' ++ List.replicate k ['.', '.'])) ['.', '.']
          = F' ++ List.replicate k ['.', '.'] := by
        simp [cleanPush, hfne]
      rw [List.cons_append, hstep,
        foldl_cleanPush_char r F' k st (fun x hx => hF x (by simp [hfr, hx]))]
      have hpop : cleanPush r
          (f :: (F' ++ (List.replicate k ['.', '.']).foldl (cleanPush r) st)) ['.', '.']
          = F' ++ (List.replicate k ['.', '.']).foldl (cleanPush r) st := by
        simp [cleanPush, hfne]
      rw [List.cons_append, hpop]
    | nil =>
      cases k with
      | zero =>
        have hstep : cleanPush false ([] ++ List.replicate 0 ['.', '.']) ['.', '.']
            = [['.', '.']] := by simp [cleanPush]
        rw [hstep]
        simp
      | succ k' =>
        have hstep : cleanPush false ([] ++ List.replicate (k' + 1) ['.', '.']) ['.', '.']
            = List.replicate (k' + 2) ['.', '.'] := by
          simp [cleanPush, List.replicate_succ]
        rw [hstep, List.reverse_replicate]
        have hsplit : List.replicate (k' + 2) (['.', '.'] : List Char)
            = List.replicate (k' + 1) ['.', '.'] ++ [['.', '.']] := by
          rw [← List.replicate_succ']
        rw [hsplit, List.foldl_append]
        simp
  · rw [cleanPush_push false _ h1 h2 h3]
    have : (s :: (F ++ List.replicate k ['.', '.'])) = (s :: F) ++ List.replicate k ['.', '.'] := by
      simp
    rw [this, foldl_cleanPush_char r (s :: F) k st (by
      intro x hx
      rcases List.mem_cons.mp hx with rfl | hx'
      · exact ⟨⟨h1, h2, hs⟩, h3⟩
      · exact hF x hx')]
    rw [cleanPush_push r _ h1 h2 h3]
    simp

theorem foldl_cleanPush_absorb {r : Bool} (segs : List (List Char))
    (hs : ∀ s ∈ segs, '/' ∉ s) (st base : List (List Char))
    (hbase : OkStack false base) :
    ((segs.foldl (cleanPush false) base).reverse).foldl (cleanPush r) st
      = (base.reverse ++ segs).foldl (cleanPush r) st := by
  induction segs generalizing base with
  | nil => simp
  | cons s rest ih =>
    rw [List.foldl_cons,
      ih (fun t ht => hs t (List.mem_cons_of_mem s ht)) (cleanPush false base s)
        (cleanPush_ok hbase (hs s (by simp))),
      List.foldl_append, cleanPush_dagger st base s hbase (hs s (by simp)),
      List.foldl_append, List.foldl_cons]

/-! ### Lemmas about `cleanChars` -/

theorem cleanChars_eq (u : List Char) (hu : u ≠ []) :
    cleanChars u
      = renderClean (isRooted u) ((splitSlash u).foldl (cleanPush (isRooted u)) []) := by
  simp only [cleanChars, if_neg hu]

theorem okStack_foldl (r : Bool) (u : List Char) :
    OkStack r ((splitSlash u).foldl (cleanPush r) []) :=
  foldl_cleanPush_ok (okStack_nil r) (splitSlash u) (splitSlash_no_slash u)

theorem renderClean_ne_nil {r : Bool} {st : List (List Char)} (hok : OkStack r st) :
    renderClean r st ≠ [] := by
  cases r with
  | true => simp [renderClean]
  | false =>
    by_cases hst : st = []
    · simp [renderClean, hst]
    · rw [renderClean, if_neg (by simp), if_neg hst]
      cases hrev : st.reverse with
      | nil => exact absurd (by simpa using congrArg List.reverse hrev) hst
      | cons s0 rest =>
        have hs0 : s0 ≠ [] :=
          (okStack_mem hok s0 (List.mem_reverse.mp (hrev ▸ List.mem_cons_self s0 rest))).1
        cases rest with
        | nil => simpa [joinSegs] using hs0
        | cons t tail =>
          have : joinSegs (s0 :: t :: tail) = s0 ++ '/' :: joinSegs (t :: tail) := rfl
          simp [this]

theorem isRooted_renderClean {r : Bool} {st : List (List Char)} (hok : OkStack r st) :
    isRooted (renderClean r st) = r := by
  cases r with
  | true => simp [renderClean, isRooted]
  | false =>
    by_cases hst : st = []
    · simp [renderClean, hst, isRooted]
    · rw [renderClean, if_neg (by simp), if_neg hst]
      cases hrev : st.reverse with
      | nil => exact absurd (by simpa using congrArg List.reverse hrev) hst
      | cons s0 rest =>
        have hs0 := okStack_mem hok s0 (List.mem_reverse.mp (hrev ▸ List.mem_cons_self s0 rest))
        obtain ⟨c, s0', rfl⟩ : ∃ c s0', s0 = c :: s0' := by
          cases s0 with
          | nil => exact absurd rfl hs0.1
          | cons c s0' => exact ⟨c, s0', rfl⟩
        have hc : c ≠ '/' := fun e => hs0.2 (e ▸ List.mem_cons_self c s0')
        cases rest with
        | nil => simp [joinSegs, isRooted, hc]
        | cons t tail =>
          have : joinSegs ((c :: s0') :: t :: tail)
              = (c :: s0') ++ '/' :: joinSegs (t :: tail) := rfl
          simp [this, isRooted, hc]

theorem cleanChars_ne_nil (u : List Char) : cleanChars u ≠ [] := by
  by_cases hu : u = []
  · subst hu; decide
  · rw [cleanChars_eq u hu]
    exact renderClean_ne_nil (okStack_foldl (isRooted u) u)

theorem isRooted_cleanChars (u : List Char) : isRooted (cleanChars u) = isRooted u := by
  by_cases hu : u = []
  · subst hu; decide
  · rw [cleanChars_eq u hu]
    exact isRooted_renderClean (okStack_foldl (isRooted u) u)

theorem foldl_splitSlash_renderClean {r : Bool} {st : List (List Char)}
    (hok : OkStack r st) :
    (splitSlash (renderClean r st)).foldl (cleanPush r) [] = st := by
  cases r with
  | true =>
    rw [renderClean, if_pos rfl]
    have hsplit : splitSlash ('/' :: joinSegs st.reverse)
        = [] :: splitSlash (joinSegs st.reverse) := by
      simp [splitSlash]
    rw [hsplit, List.foldl_cons, cleanPush_nil]
    by_cases hst : st = []
    · subst hst; decide
    · rw [splitSlash_joinSegs _ (by simpa using hst)
        (fun s hs => (okStack_mem hok s (List.mem_reverse.mp hs)).2)]
      exact foldl_cleanPush_replay hok
  | false =>
    by_cases hst : st = []
    · subst hst; decide
    · rw [renderClean, if_neg (by simp), if_neg hst,
        splitSlash_joinSegs _ (by simpa using hst)
          (fun s hs => (okStack_mem hok s (List.mem_reverse.mp hs)).2)]
      exact foldl_cleanPush_replay hok

theorem foldl_splitSlash_cleanChars (u : List Char) :
    (splitSlash (cleanChars u)).foldl (cleanPush (isRooted u)) []
      = (splitSlash u).foldl (cleanPush (isRooted u)) [] := by
  by_cases hu : u = []
  · subst hu; decide
  · rw [cleanChars_eq u hu]
    exact foldl_splitSlash_renderClean (okStack_foldl (isRooted u) u)

theorem isRooted_append {A : List Char} (hA : A ≠ []) (x : List Char) :
    isRooted (A ++ x) = isRooted A := by
  cases A with
  | nil => exact absurd rfl hA
  | cons c l => rfl

theorem cleanChars_append_slash (A B : List Char) (hA : A ≠ []) :
    cleanChars (A ++ '/' :: B)
      = renderClean (isRooted A)
          ((splitSlash A ++ splitSlash B).foldl (cleanPush (isRooted A)) []) := by
  rw [cleanChars_eq _ (by simp : A ++ '/' :: B ≠ []), isRooted_append hA,
    splitSlash_append]

theorem cleanChars_idem (u : List Char) : cleanChars (cleanChars u) = cleanChars u := by
  by_cases hu : u = []
  · subst hu; decide
  · rw [cleanChars_eq (cleanChars u) (cleanChars_ne_nil u), isRooted_cleanChars u,
      foldl_splitSlash_cleanChars u, ← cleanChars_eq u hu]

theorem cleanChars_clean_append (u v : List Char) (hu : u ≠ []) :
    cleanChars (cleanChars u ++ '/' :: v) = cleanChars (u ++ '/' :: v) := by
  rw [cleanChars_append_slash _ v (cleanChars_ne_nil u),
    cleanChars_append_slash u v hu, isRooted_cleanChars u,
    List.foldl_append, List.foldl_append, foldl_splitSlash_cleanChars u]

theorem foldl_splitSlash_renderClean_nr {su : List (List Char)}
    (hok : OkStack false su) (r : Bool) (st : List (List Char)) :
    (splitSlash (renderClean false su)).foldl (cleanPush r) st
      = (su.reverse).foldl (cleanPush r) st := by
  by_cases hsu : su = []
  · subst hsu
    have h1 : renderClean false [] = ['.'] := by decide
    have h2 : splitSlash ['.'] = [['.']] := by decide
    rw [h1, h2, List.foldl_cons, cleanPush_dot]
    rfl
  · rw [renderClean, if_neg (by simp), if_neg hsu,
      splitSlash_joinSegs _ (by simpa using hsu)
        (fun s hs => (okStack_mem hok s (List.mem_reverse.mp hs)).2)]

theorem foldl_splitSlash_clean_nr (u : List Char) (hu : isRooted u = false)
    (r : Bool) (st : List (List Char)) :
    (splitSlash (cleanChars u)).foldl (cleanPush r) st
      = (splitSlash u).foldl (cleanPush r) st := by
  have habs := @foldl_cleanPush_absorb r (splitSlash u) (splitSlash_no_slash u)
    st [] (okStack_nil false)
  simp only [List.reverse_nil, List.nil_append] at habs
  by_cases hun : u = []
  · subst hun
    have h1 : cleanChars ([] : List Char) = ['.'] := by decide
    have h2 : splitSlash ['.'] = [['.']] := by decide
    have h3 : splitSlash ([] : List Char) = [[]] := by decide
    rw [h1, h2, h3, List.foldl_cons, List.foldl_cons, cleanPush_dot, cleanPush_nil]
  · have hok : OkStack false ((splitSlash u).foldl (cleanPush false) []) := by
      have := okStack_foldl (isRooted u) u
      rwa [hu] at this
    rw [cleanChars_eq u hun, hu, foldl_splitSlash_renderClean_nr hok r st]
    exact habs

/-! ### Lemmas about `Join` -/

theorem strData_ne_nil {s : String} (h : s ≠ "") : s.data ≠ [] := by
  intro hd
  apply h
  cases s with
  | mk d => cases hd; rfl

theorem mk_ne_empty {l : List Char} (h : l ≠ []) : String.mk l ≠ "" := by
  intro he
  exact h (congrArg String.data he)

theorem goJoin_cons (p : String) (rest : List String) (hp : p ≠ "") :
    goJoin (p :: rest) = String.mk (cleanChars (strJoinSlash (p :: rest))) := by
  unfold goJoin
  rw [List.dropWhile_cons, if_neg (by simp [beq_eq_false_iff_ne.mpr hp])]

theorem goJoin_empty_cons (rest : List String) : goJoin ("" :: rest) = goJoin rest := by
  unfold goJoin
  rw [List.dropWhile_cons, if_pos (by simp)]

theorem Join_eq (p : String) (rest : List String) (hp : p ≠ "") :
    Join (p :: rest) = String.mk (cleanChars (strJoinSlash (p :: rest))) := by
  rw [Join, goJoin_cons p rest hp, goClean]
  show String.mk (cleanChars (cleanChars (strJoinSlash (p :: rest)))) = _
  rw [cleanChars_idem]

theorem Join_empty_head (rest : List String) : Join ("" :: rest) = Join rest := by
  rw [Join, goJoin_empty_cons, Join]

theorem Join_ne_empty (p : String) (rest : List String) (hp : p ≠ "") :
    Join (p :: rest) ≠ "" := by
  rw [Join_eq p rest hp]
  exact mk_ne_empty (cleanChars_ne_nil _)

theorem Join_flatten_left (p n name : String) (hn : n ≠ "") :
    Join [Join [p, n], name] = Join [p, n, name] := by
  by_cases hp : p = ""
  · subst hp
    have h1 : Join ["", n] = String.mk (cleanChars n.data) := by
      rw [Join_empty_head, Join_eq n [] hn]
      rfl
    have hx : String.mk (cleanChars n.data) ≠ "" := mk_ne_empty (cleanChars_ne_nil _)
    rw [h1, Join_eq _ [name] hx, Join_empty_head, Join_eq n [name] hn]
    show String.mk (cleanChars (cleanChars n.data ++ '/' :: name.data))
        = String.mk (cleanChars (n.data ++ '/' :: name.data))
    rw [cleanChars_clean_append n.data name.data (strData_ne_nil hn)]
  · have h1 : Join [p, n] = String.mk (cleanChars (p.data ++ '/' :: n.data)) := by
      rw [Join_eq p [n] hp]
      rfl
    have hx : String.mk (cleanChars (p.data ++ '/' :: n.data)) ≠ "" :=
      mk_ne_empty (cleanChars_ne_nil _)
    rw [h1, Join_eq _ [name] hx, Join_eq p [n, name] hp]
    show String.mk (cleanChars (cleanChars (p.data ++ '/' :: n.data) ++ '/' :: name.data))
        = String.mk (cleanChars (p.data ++ '/' :: (n.data ++ '/' :: name.data)))
    rw [cleanChars_clean_append (p.data ++ '/' :: n.data) name.data (by simp)]
    congr 1
    simp

theorem Join_flatten_middle (p a b c : String) (ha : a ≠ "")
    (har : isRooted a.data = false) :
    Join [p, Join [a, b], c] = Join [p, a, b, c] := by
  have hy : Join [a, b] = String.mk (cleanChars (a.data ++ '/' :: b.data)) := by
    rw [Join_eq a [b] ha]
    rfl
  have hyne : String.mk (cleanChars (a.data ++ '/' :: b.data)) ≠ "" :=
    mk_ne_empty (cleanChars_ne_nil _)
  by_cases hp : p = ""
  · subst hp
    rw [hy, Join_empty_head, Join_empty_head, Join_eq _ [c] hyne, Join_eq a [b, c] ha]
    show String.mk (cleanChars (cleanChars (a.data ++ '/' :: b.data) ++ '/' :: c.data))
        = String.mk (cleanChars (a.data ++ '/' :: (b.data ++ '/' :: c.data)))
    rw [cleanChars_clean_append (a.data ++ '/' :: b.data) c.data (by simp)]
    congr 1
    simp
  · rw [hy, Join_eq p [String.mk (cleanChars (a.data ++ '/' :: b.data)), c] hp,
      Join_eq p [a, b, c] hp]
    show String.mk (cleanChars (p.data ++ '/' :: (cleanChars (a.data ++ '/' :: b.data) ++ '/' :: c.data)))
        = String.mk (cleanChars (p.data ++ '/' :: (a.data ++ '/' :: (b.data ++ '/' :: c.data))))
    congr 1
    have hassoc : a.data ++ '/' :: (b.data ++ '/' :: c.data)
        = (a.data ++ '/' :: b.data) ++ '/' :: c.data := by simp
    rw [hassoc, cleanChars_append_slash p.data _ (strData_ne_nil hp),
      cleanChars_append_slash p.data _ (strData_ne_nil hp),
      splitSlash_append (cleanChars (a.data ++ '/' :: b.data)) c.data,
      splitSlash_append (a.data ++ '/' :: b.data) c.data]
    have hur : isRooted (a.data ++ '/' :: b.data) = false := by
      rw [isRooted_append (strData_ne_nil ha)]
      exact har
    congr 1
    rw [List.foldl_append, List.foldl_append, List.foldl_append, List.foldl_append,
      foldl_splitSlash_clean_nr _ hur]

/-! ### Lemmas about the filesystem model -/

theorem lookupFS_set_self (fs : FS) (k : String) (v : Entry) :
    lookupFS (setFS fs k v) k = some v := by
  simp [lookupFS, setFS, List.find?]

theorem lookupFS_set_ne (fs : FS) {k k' : String} (v : Entry) (h : k' ≠ k) :
    lookupFS (setFS fs k v) k' = lookupFS fs k' := by
  have hbk : (k == k') = false := beq_eq_false_iff_ne.mpr (Ne.symm h)
  simp only [lookupFS, setFS, List.find?, hbk]
  induction fs with
  | nil => simp
  | cons kv rest ih =>
    by_cases hkv : kv.1 = k
    · have h1 : (!(kv.1 == k)) = false := by simp [hkv]
      have h2 : (kv.1 == k') = false := by
        rw [hkv]
        exact hbk
      simp only [List.filter_cons, h1, Bool.false_eq_true, if_false, List.find?, h2, ih]
    · have h1 : (!(kv.1 == k)) = true := by simp [hkv]
      simp only [List.filter_cons, h1, if_true, List.find?]
      by_cases hq : kv.1 = k'
      · simp [hq]
      · have h2 : (kv.1 == k') = false := beq_eq_false_iff_ne.mpr hq
        simp only [h2, ih]

/-! ### Lemmas about `mkdirAll` -/

theorem mkdirAll_exists_dir {fs : FS} {dir : String} {fi : Entry}
    (hl : lookupFS fs dir = some fi) (hd : fi.isDir = true) (fuel : Nat) (mode : Nat) :
    mkdirAll (fuel + 1) fs dir mode = (none, fs, [Op.lstat dir]) := by
  simp [mkdirAll, hl, hd]

theorem mkdirAll_some_dir (fuel : Nat) (fs : FS) (dir : String) (mode : Nat)
    (hnone : (mkdirAll fuel fs dir mode).1 = none) :
    ∃ e, lookupFS (mkdirAll fuel fs dir mode).2.1 dir = some e ∧ e.isDir = true := by
  cases fuel with
  | zero => simp [mkdirAll] at hnone
  | succ fuel' =>
    cases hl : lookupFS fs dir with
    | some fi =>
      by_cases hd : fi.isDir
      · exact ⟨fi, by simp [mkdirAll, hl, hd, hl], hd⟩
      · simp [mkdirAll, hl, hd] at hnone
    | none =>
      simp only [mkdirAll, hl] at hnone ⊢
      cases h2 : lookupFS
          (match lookupFS (mkdirAll fuel' fs (goDir dir) ModesDir).2.1 dir with
           | some _ => (some openExclErr, (mkdirAll fuel' fs (goDir dir) ModesDir).2.1)
           | none =>
             match lookupFS (mkdirAll fuel' fs (goDir dir) ModesDir).2.1 (goDir dir) with
             | some fi =>
               if fi.isDir then
                 (none, setFS (mkdirAll fuel' fs (goDir dir) ModesDir).2.1 dir ⟨true, [], 0o755⟩)
               else (some noSuchFileErr, (mkdirAll fuel' fs (goDir dir) ModesDir).2.1)
             | none => (some noSuchFileErr, (mkdirAll fuel' fs (goDir dir) ModesDir).2.1)).2
          dir with
      | none => simp [h2] at hnone
      | some fi =>
        by_cases hd : fi.isDir
        · refine ⟨⟨true, fi.content, mode⟩, ?_, rfl⟩
          simp only [h2, hd, if_true]
          exact lookupFS_set_self _ dir _
        · simp [h2, hd] at hnone

/-! ### Lemmas about `SaveF` and `Load` -/

theorem saveF_ok (fs : FS) (p : String) (h : Handle) (b : List Nat)
    (hs : (SaveF none fs p h b).1 = none) :
    Handle.Valid h = none
    ∧ lookupFS (SaveF none fs p h b).2.1 (Filename p h)
        = some ⟨false, b, stripWrite createdFileMode⟩
    ∧ (h.type = DataFile →
        ∃ e, lookupFS (SaveF none fs p h b).2.1 (goDir (Filename p h)) = some e
             ∧ e.isDir = true) := by
  cases hv : Handle.Valid h with
  | some e => simp [SaveF, clientError, hv] at hs
  | none =>
    refine ⟨rfl, ?_, ?_⟩
    · by_cases hdt : h.type = DataFile
      · simp only [SaveF, clientError, Option.getD_none, hv, hdt, if_true] at hs ⊢
        cases hm : (mkdirAll ((goDir (Filename p h)).length + 2) fs
            (goDir (Filename p h)) ModesDir).1 with
        | some e => simp [hm] at hs
        | none =>
          simp only [hm] at hs ⊢
          cases hlk : lookupFS (mkdirAll ((goDir (Filename p h)).length + 2) fs
              (goDir (Filename p h)) ModesDir).2.1 (Filename p h) with
          | some x => simp [hlk] at hs
          | none =>
            simp only [hlk]
            exact lookupFS_set_self _ _ _
      · simp only [SaveF, clientError, Option.getD_none, hv, hdt, if_false] at hs ⊢
        cases hlk : lookupFS fs (Filename p h) with
        | some x => simp [hlk] at hs
        | none =>
          simp only [hlk]
          exact lookupFS_set_self _ _ _
    · by_cases hdt : h.type = DataFile
      · intro _
        simp only [SaveF, clientError, Option.getD_none, hv, hdt, if_true] at hs ⊢
        set M := mkdirAll ((goDir (Filename p h)).length + 2) fs
          (goDir (Filename p h)) ModesDir with hM
        cases hm : M.1 with
        | some e => simp [hm] at hs
        | none =>
          simp only [hm] at hs ⊢
          cases hlk : lookupFS M.2.1 (Filename p h) with
          | some x => simp [hlk] at hs
          | none =>
            simp only [hlk]
            rw [hM] at hm
            obtain ⟨e, he, hed⟩ := mkdirAll_some_dir _ _ _ _ hm
            rw [← hM] at he
            have hne : goDir (Filename p h) ≠ Filename p h := by
              intro heq
              rw [heq] at he
              rw [hlk] at he
              cases he
            rw [lookupFS_set_ne _ _ hne, lookupFS_set_ne _ _ hne,
              lookupFS_set_ne _ _ hne]
            exact ⟨e, he, hed⟩
      · intro hdt'
        exact absurd hdt' hdt

theorem saveF_collision (fs : FS) (p : String) (h : Handle) (b : List Nat) (x : Entry)
    (hv : Handle.Valid h = none)
    (hx : lookupFS fs (Filename p h) = some x)
    (hdir : h.type = DataFile →
      ∃ e, lookupFS fs (goDir (Filename p h)) = some e ∧ e.isDir = true) :
    (SaveF none fs p h b).1 = some (GoErr.wrapped "OpenFile" openExclErr)
    ∧ (SaveF none fs p h b).2.1 = fs
    ∧ Op.write (Filename p h) ∉ (SaveF none fs p h b).2.2
    ∧ Op.chmod (Filename p h) ∉ (SaveF none fs p h b).2.2 := by
  by_cases hdt : h.type = DataFile
  · obtain ⟨e, he, hed⟩ := hdir hdt
    have hmk := mkdirAll_exists_dir he hed ((goDir (Filename p h)).length + 1) ModesDir
    have hmk' : mkdirAll ((goDir (Filename p h)).length + 2) fs (goDir (Filename p h))
        ModesDir = (none, fs, [Op.lstat (goDir (Filename p h))]) := hmk
    simp [SaveF, clientError, hv, hdt, hmk', hx]
  · simp [SaveF, clientError, hv, hdt, hx]

theorem load_full (fs : FS) (p : String) (h : Handle) (b : List Nat) (m : Nat)
    (hv : Handle.Valid h = none)
    (hl : lookupFS fs (filename p h) = some ⟨false, b, m⟩) :
    Load none fs p h 0 0 = (Except.ok b, [Op.openR (filename p h)]) := by
  simp [Load, hv, hl]

/-! ### Claim C6 -/

/-- C6: for every handle whose type is one of the six collection types,
the computed remote path is `root/config` for Config (name ignored),
`root/data/<first-2-chars>/<name>` for Data names longer than two
characters, `root/data/<name>` for Data names of at most two characters,
and `root/<typeDir>/<name>` for the other four types, with POSIX
join-and-clean semantics. -/
theorem claim_c6_remote_path (p : String) (h : Handle) (ht : h.type ∈ sixTypes) :
    filename p h = claimPath p h := by
  obtain ⟨t, name⟩ := h
  simp only [sixTypes, List.mem_cons, List.not_mem_nil, or_false] at ht
  rcases ht with rfl | rfl | rfl | rfl | rfl | rfl
  · by_cases hlen : name.length > 2
    · have e1 : filename p ⟨DataFile, name⟩
          = Join [Join [p, Join [PathsData, name.take 2]], name] := by
        simp [filename, dirname, DataFile, ConfigFile, PathsData, hlen]
      have e2 : claimPath p ⟨DataFile, name⟩ = Join [p, "data", name.take 2, name] := by
        simp [claimPath, DataFile, ConfigFile, hlen]
      rw [e1, e2,
        Join_flatten_left p (Join [PathsData, name.take 2]) name
          (Join_ne_empty PathsData [name.take 2] (by decide)),
        Join_flatten_middle p PathsData (name.take 2) name (by decide) (by decide)]
      rfl
    · have e1 : filename p ⟨DataFile, name⟩ = Join [Join [p, PathsData], name] := by
        simp [filename, dirname, DataFile, ConfigFile, PathsData, hlen]
      have e2 : claimPath p ⟨DataFile, name⟩ = Join [p, "data", name] := by
        simp [claimPath, DataFile, ConfigFile, hlen]
      rw [e1, e2, Join_flatten_left p PathsData name (by decide)]
      rfl
  · have e1 : filename p ⟨SnapshotFile, name⟩ = Join [Join [p, PathsSnapshots], name] := by
      simp [filename, dirname, SnapshotFile, DataFile, ConfigFile, PathsSnapshots]
    have e2 : claimPath p ⟨SnapshotFile, name⟩ = Join [p, "snapshots", name] := by
      simp [claimPath, SnapshotFile, DataFile, ConfigFile]
    rw [e1, e2, Join_flatten_left p PathsSnapshots name (by decide)]
    rfl
  · have e1 : filename p ⟨IndexFile, name⟩ = Join [Join [p, PathsIndex], name] := by
      simp [filename, dirname, IndexFile, SnapshotFile, DataFile, ConfigFile, PathsIndex]
    have e2 : claimPath p ⟨IndexFile, name⟩ = Join [p, "index", name] := by
      simp [claimPath, IndexFile, SnapshotFile, DataFile, ConfigFile]
    rw [e1, e2, Join_flatten_left p PathsIndex name (by decide)]
    rfl
  · have e1 : filename p ⟨LockFile, name⟩ = Join [Join [p, PathsLocks], name] := by
      simp [filename, dirname, LockFile, IndexFile, SnapshotFile, DataFile, ConfigFile,
        PathsLocks]
    have e2 : claimPath p ⟨LockFile, name⟩ = Join [p, "locks", name] := by
      simp [claimPath, LockFile, IndexFile, SnapshotFile, DataFile, ConfigFile]
    rw [e1, e2, Join_flatten_left p PathsLocks name (by decide)]
    rfl
  · have e1 : filename p ⟨KeyFile, name⟩ = Join [Join [p, PathsKeys], name] := by
      simp [filename, dirname, KeyFile, LockFile, IndexFile, SnapshotFile, DataFile,
        ConfigFile, PathsKeys]
    have e2 : claimPath p ⟨KeyFile, name⟩ = Join [p, "keys", name] := by
      simp [claimPath, KeyFile, LockFile, IndexFile, SnapshotFile, DataFile, ConfigFile]
    rw [e1, e2, Join_flatten_left p PathsKeys name (by decide)]
    rfl
  · simp [filename, claimPath, ConfigFile]

/-- Witness for C6 at a concrete sharded data handle. -/
theorem claim_c6_remote_path_witness :
    filename "/r" ⟨DataFile, "abcdef"⟩ = claimPath "/r" ⟨DataFile, "abcdef"⟩ :=
  claim_c6_remote_path "/r" ⟨DataFile, "abcdef"⟩ (by decide)

/-! ### Claims C1, C2, C7 -/

/-- C1: after a successful `Save(h, b1)` (healthy client), a second
`Save(h, b2)` fails with the collision error raised by the
exclusive-create open, performs no write and no chmod on the existing
file, and a subsequent `Load(h, 0, 0)` still yields exactly `b1`. -/
theorem claim_c1_exclusive_save (fs : FS) (p : String) (h : Handle) (b1 b2 : List Nat)
    (hok : (SaveF none fs p h b1).1 = none) :
    (SaveF none (SaveF none fs p h b1).2.1 p h b2).1
        = some (GoErr.wrapped "OpenFile" openExclErr)
    ∧ Op.write (Filename p h) ∉ (SaveF none (SaveF none fs p h b1).2.1 p h b2).2.2
    ∧ Op.chmod (Filename p h) ∉ (SaveF none (SaveF none fs p h b1).2.1 p h b2).2.2
    ∧ (Load none (SaveF none (SaveF none fs p h b1).2.1 p h b2).2.1 p h 0 0).1
        = Except.ok b1 := by
  obtain ⟨hv, hfile, hdir⟩ := saveF_ok fs p h b1 hok
  obtain ⟨hc1, hc2, hc3, hc4⟩ :=
    saveF_collision (SaveF none fs p h b1).2.1 p h b2 _ hv hfile hdir
  refine ⟨hc1, hc3, hc4, ?_⟩
  rw [hc2, load_full (SaveF none fs p h b1).2.1 p h b1 (stripWrite createdFileMode)
    hv hfile]

/-- Witness for C1: a concrete double save of a sharded data blob. -/
theorem claim_c1_exclusive_save_witness :
    (SaveF none (SaveF none [("/r/data", ⟨true, [], 0o755⟩)] "/r" ⟨DataFile, "abcdef"⟩
        [1, 2, 3]).2.1 "/r" ⟨DataFile, "abcdef"⟩ [4, 5]).1
      = some (GoErr.wrapped "OpenFile" openExclErr)
    ∧ Op.write (Filename "/r" ⟨DataFile, "abcdef"⟩)
        ∉ (SaveF none (SaveF none [("/r/data", ⟨true, [], 0o755⟩)] "/r"
            ⟨DataFile, "abcdef"⟩ [1, 2, 3]).2.1 "/r" ⟨DataFile, "abcdef"⟩ [4, 5]).2.2
    ∧ Op.chmod (Filename "/r" ⟨DataFile, "abcdef"⟩)
        ∉ (SaveF none (SaveF none [("/r/data", ⟨true, [], 0o755⟩)] "/r"
            ⟨DataFile, "abcdef"⟩ [1, 2, 3]).2.1 "/r" ⟨DataFile, "abcdef"⟩ [4, 5]).2.2
    ∧ (Load none (SaveF none (SaveF none [("/r/data", ⟨true, [], 0o755⟩)] "/r"
          ⟨DataFile, "abcdef"⟩ [1, 2, 3]).2.1 "/r" ⟨DataFile, "abcdef"⟩ [4, 5]).2.1
        "/r" ⟨DataFile, "abcdef"⟩ 0 0).1 = Except.ok [1, 2, 3] :=
  claim_c1_exclusive_save [("/r/data", ⟨true, [], 0o755⟩)] "/r" ⟨DataFile, "abcdef"⟩
    [1, 2, 3] [4, 5] (by decide)

/-- C2: a successful `Save(h, b)` followed by `Load(h, 0, 0)` yields a
stream whose full contents are exactly `b`. -/
theorem claim_c2_roundtrip (fs : FS) (p : String) (h : Handle) (b : List Nat)
    (hok : (SaveF none fs p h b).1 = none) :
    (Load none (SaveF none fs p h b).2.1 p h 0 0).1 = Except.ok b := by
  obtain ⟨hv, hfile, -⟩ := saveF_ok fs p h b hok
  rw [load_full (SaveF none fs p h b).2.1 p h b (stripWrite createdFileMode) hv hfile]

/-- Witness for C2: a concrete snapshot save and reload. -/
theorem claim_c2_roundtrip_witness :
    (Load none (SaveF none [] "/repo" ⟨SnapshotFile, "snap1"⟩ [7, 8, 9]).2.1 "/repo"
      ⟨SnapshotFile, "snap1"⟩ 0 0).1 = Except.ok [7, 8, 9] :=
  claim_c2_roundtrip [] "/repo" ⟨SnapshotFile, "snap1"⟩ [7, 8, 9] (by decide)

/-- C7: `Load` rejects a negative offset before opening the remote file
(no remote call is issued); with a positive offset a failing seek closes
the file and returns the seek error; with a positive length the stream
yields at most `length` bytes from the offset; concretely, saving 10
bytes and loading with `length = 4, offset = 2` yields bytes `[2:6)`. -/
theorem claim_c7_load_semantics :
    (∀ (seekE : Option GoErr) (fs : FS) (p : String) (h : Handle) (len off : Int),
      Handle.Valid h = none → off < 0 →
      Load seekE fs p h len off = (Except.error (.msg "offset is negative"), []))
    ∧ (∀ (e : GoErr) (fs : FS) (p : String) (h : Handle) (len off : Int) (fi : Entry),
      Handle.Valid h = none → 0 < off →
      lookupFS fs (filename p h) = some fi →
      Load (some e) fs p h len off
        = (Except.error e, [Op.openR (filename p h), Op.seek (filename p h),
            Op.closeF (filename p h)]))
    ∧ (∀ (fs : FS) (p : String) (h : Handle) (len off : Int) (fi : Entry),
      Handle.Valid h = none → 0 < off → 0 < len →
      lookupFS fs (filename p h) = some fi →
      (Load none fs p h len off).1
        = Except.ok ((fi.content.drop off.toNat).take len.toNat))
    ∧ (Load none (SaveF none [] "/r" ⟨SnapshotFile, "s1"⟩
        [10, 11, 12, 13, 14, 15, 16, 17, 18, 19]).2.1 "/r" ⟨SnapshotFile, "s1"⟩ 4 2).1
        = Except.ok [12, 13, 14, 15] := by
  refine ⟨?_, ?_, ?_, by decide⟩
  · intro seekE fs p h len off hv hoff
    simp [Load, hv, hoff]
  · intro e fs p h len off fi hv hoff hlk
    have hnn : ¬off < 0 := by omega
    simp [Load, hv, hnn, hoff, hlk]
  · intro fs p h len off fi hv hoff hlen hlk
    have hnn : ¬off < 0 := by omega
    simp [Load, hv, hnn, hoff, hlk, hlen]

/-- Witness for C7: the negative-offset and seek-failure branches at
concrete inputs. -/
theorem claim_c7_load_semantics_witness :
    Load none [] "/w" ⟨SnapshotFile, "w1"⟩ 0 (-1)
        = (Except.error (.msg "offset is negative"), [])
    ∧ Load (some (GoErr.msg "seek failed")) [("/w/snapshots/w1", ⟨false, [1, 2, 3], 420⟩)]
        "/w" ⟨SnapshotFile, "w1"⟩ 0 1
        = (Except.error (GoErr.msg "seek failed"),
           [Op.openR "/w/snapshots/w1", Op.seek "/w/snapshots/w1",
            Op.closeF "/w/snapshots/w1"]) :=
  ⟨claim_c7_load_semantics.1 none [] "/w" ⟨SnapshotFile, "w1"⟩ 0 (-1) (by decide)
      (by decide),
   claim_c7_load_semantics.2.1 (GoErr.msg "seek failed")
      [("/w/snapshots/w1", ⟨false, [1, 2, 3], 420⟩)] "/w" ⟨SnapshotFile, "w1"⟩ 0 1
      ⟨false, [1, 2, 3], 420⟩ (by decide) (by decide) (by decide)⟩

/-! ### Claim C3 -/

/-- C3 counterexample: on an invalid handle (Data type, empty name) `Test`
and `Remove` perform no validation — `Test` issues the remote `Lstat` of
the bare data directory and returns `(true, nil)`, and `Remove` issues the
remote `Remove`, deleting that directory. -/
theorem claim_c3_counterexample :
    Handle.Valid ⟨DataFile, ""⟩ = some (.msg "invalid Name")
    ∧ TestF none [("/r/data", ⟨true, [], 0o755⟩)] "/r" ⟨DataFile, ""⟩ noSuchFileErr
        = ((true, none), [Op.lstat "/r/data"])
    ∧ RemoveF none [("/r/data", ⟨true, [], 0o755⟩)] "/r" ⟨DataFile, ""⟩ noSuchFileErr
        = (none, [], [Op.remove "/r/data"]) := by decide

/-- C3 amended: with a healthy client, `Save`, `Load` and `Stat` fail on
an invalid handle with the validation error, before issuing any remote
call and without touching the filesystem; `Test` and `Remove` perform no
handle validation (see the counterexample). -/
theorem claim_c3_validation (chanVal : Option (Option GoErr)) (fs : FS) (p : String)
    (h : Handle) (rd : List Nat) (seekE : Option GoErr) (len off : Int)
    (nfErr e : GoErr) (hchan : clientError chanVal = none)
    (hv : Handle.Valid h = some e) :
    SaveF chanVal fs p h rd = (some e, fs, [])
    ∧ Load seekE fs p h len off = (Except.error e, [])
    ∧ StatF chanVal fs p h nfErr = (Except.error e, []) := by
  refine ⟨?_, ?_, ?_⟩
  · simp [SaveF, hchan, hv]
  · simp [Load, hv]
  · simp [StatF, hchan, hv]

/-- Witness for the amended C3 at a concrete invalid handle. -/
theorem claim_c3_validation_witness :
    SaveF none [] "/r" ⟨DataFile, ""⟩ [1] = (some (.msg "invalid Name"), [], [])
    ∧ Load none [] "/r" ⟨DataFile, ""⟩ 0 0
        = (Except.error (.msg "invalid Name"), [])
    ∧ StatF none [] "/r" ⟨DataFile, ""⟩ noSuchFileErr
        = (Except.error (.msg "invalid Name"), []) :=
  claim_c3_validation none [] "/r" ⟨DataFile, ""⟩ [1] none 0 0 noSuchFileErr
    (.msg "invalid Name") (by decide) (by decide)

/-! ### Claim C4 -/

/-- C4 counterexample: the transport's raw "No such file" status error
satisfies the §4.5 predicate `SFTP.IsNotExist`, yet `Test` — which
classifies with `os.IsNotExist` on the error's cause instead — returns it
as a wrapped error rather than `(false, nil)`. -/
theorem claim_c4_counterexample :
    IsNotExist noSuchFileErr = true
    ∧ TestR none (some noSuchFileErr)
        = (false, some (GoErr.wrapped "Lstat" noSuchFileErr)) := by decide

/-- C4 amended: with a healthy client, `Test` returns `(false, nil)`
exactly when `os.IsNotExist` holds of the stat error's cause; any other
stat failure yields `(false, err)` with the error wrapped as `"Lstat"`,
and a successful stat yields `(true, nil)`. -/
theorem claim_c4_classification :
    (∀ e : GoErr, TestR none (some e)
        = if osIsNotExist (cause e) then (false, none)
          else (false, some (GoErr.wrapped "Lstat" e)))
    ∧ TestR none none = (true, none) := by
  refine ⟨?_, rfl⟩
  intro e
  by_cases hc : osIsNotExist (cause e) = true
  · simp [TestR, clientError, hc]
  · simp [TestR, clientError, hc]

/-! ### Claim C5 -/

/-- C5 counterexample: a remote filesystem holding the root and the six
skeleton subdirectories but no root-level `config` file passes `Open`'s
check — `Open` never stats the config file. -/
theorem claim_c5_counterexample :
    openCheck [("/r", ⟨true, [], 0o755⟩), ("/r/data", ⟨true, [], 0o755⟩),
      ("/r/snapshots", ⟨true, [], 0o755⟩), ("/r/index", ⟨true, [], 0o755⟩),
      ("/r/locks", ⟨true, [], 0o755⟩), ("/r/keys", ⟨true, [], 0o755⟩),
      ("/r/temp", ⟨true, [], 0o755⟩)] "/r" = none
    ∧ lookupFS [("/r", ⟨true, [], 0o755⟩), ("/r/data", ⟨true, [], 0o755⟩),
      ("/r/snapshots", ⟨true, [], 0o755⟩), ("/r/index", ⟨true, [], 0o755⟩),
      ("/r/locks", ⟨true, [], 0o755⟩), ("/r/keys", ⟨true, [], 0o755⟩),
      ("/r/temp", ⟨true, [], 0o755⟩)] (Join ["/r", "config"]) = none := by decide

/-- C5 amended: `Open`'s skeleton check succeeds exactly when the root
directory and the data, snapshots, index, locks, keys and temp
subdirectories all pre-exist (the config file is not checked), and a
failure names the first missing entry in a "does not exist" error. -/
theorem claim_c5_open_skeleton (fs : FS) (dir : String) :
    (openCheck fs dir = none ↔ ∀ d ∈ paths dir, (lookupFS fs d).isSome = true)
    ∧ ∀ e, openCheck fs dir = some e →
        ∃ d, d ∈ paths dir ∧ lookupFS fs d = none
          ∧ e = .msg (d ++ " does not exist") := by
  have main : ∀ l : List String,
      (lstatLoop fs l = none ↔ ∀ d ∈ l, (lookupFS fs d).isSome = true)
      ∧ ∀ e, lstatLoop fs l = some e →
          ∃ d, d ∈ l ∧ lookupFS fs d = none
            ∧ e = .msg (d ++ " does not exist") := by
    intro l
    induction l with
    | nil => simp [lstatLoop]
    | cons d rest ih =>
      by_cases hd : (lookupFS fs d).isSome = true
      · refine ⟨?_, ?_⟩
        · rw [lstatLoop, if_pos hd, ih.1]
          simp [List.forall_mem_cons, hd]
        · intro e he
          rw [lstatLoop, if_pos hd] at he
          obtain ⟨d', hm, hl, hee⟩ := ih.2 e he
          exact ⟨d', List.mem_cons_of_mem _ hm, hl, hee⟩
      · refine ⟨?_, ?_⟩
        · rw [lstatLoop, if_neg hd]
          simp only [reduceCtorEq, false_iff]
          intro hall
          exact hd (hall d (List.mem_cons_self d rest))
        · intro e he
          rw [lstatLoop, if_neg hd] at he
          refine ⟨d, List.mem_cons_self d rest, ?_, (Option.some.inj he).symm⟩
          cases hlo : lookupFS fs d with
          | none => rfl
          | some x => simp [hlo] at hd
  exact main (paths dir)

/-- Witness for the amended C5: a root with everything but the data
directory missing is reported as "/r/data does not exist". -/
theorem claim_c5_open_skeleton_witness :
    ∃ d, d ∈ paths "/r" ∧ lookupFS [("/r", ⟨true, [], 0o755⟩)] d = none
      ∧ GoErr.msg "/r/data does not exist" = GoErr.msg (d ++ " does not exist") :=
  (claim_c5_open_skeleton [("/r", ⟨true, [], 0o755⟩)] "/r").2
    (GoErr.msg "/r/data does not exist") (by decide)

/-! ### Claim C8 -/

/-- C8: recursive directory creation succeeds immediately when the target
is already a directory, fails when it exists as a non-directory, and in
the create path trusts only the re-stat: the result is independent of
both the recursive parent result and the `Mkdir` result, succeeds with
the chmod whenever the re-stat reports a directory (so a concurrent
creation cannot make it fail), fails when the re-stat fails, and the
filesystem run on a missing target always attempts the `Mkdir`. -/
theorem claim_c8_mkdir_race :
    (∀ (fi : Entry) (a b : Option GoErr) (st2 : Except GoErr Entry) (ch : Option GoErr),
      fi.isDir = true → mkdirAllR (.ok fi) a b st2 ch = none)
    ∧ (∀ (fi : Entry) (a b : Option GoErr) (st2 : Except GoErr Entry) (ch : Option GoErr),
      fi.isDir = false → mkdirAllR (.ok fi) a b st2 ch
        = some (.msg "mkdirAll: entry exists but is not a directory"))
    ∧ (∀ (e : GoErr) (a a' b b' : Option GoErr) (st2 : Except GoErr Entry)
        (ch : Option GoErr),
      mkdirAllR (.error e) a b st2 ch = mkdirAllR (.error e) a' b' st2 ch)
    ∧ (∀ (e : GoErr) (a b : Option GoErr) (fi : Entry) (ch : Option GoErr),
      fi.isDir = true → mkdirAllR (.error e) a b (.ok fi) ch = ch)
    ∧ (∀ (e : GoErr) (a b : Option GoErr) (st2e : GoErr) (ch : Option GoErr),
      mkdirAllR (.error e) a b (.error st2e) ch
        = some (.msg "mkdirAll: unable to create directories"))
    ∧ (∀ (fuel : Nat) (fs : FS) (dir : String) (mode : Nat),
      lookupFS fs dir = none →
      Op.mkdir dir ∈ (mkdirAll (fuel + 1) fs dir mode).2.2) := by
  refine ⟨?_, ?_, ?_, ?_, ?_, ?_⟩
  · intro fi a b st2 ch hd
    simp [mkdirAllR, hd]
  · intro fi a b st2 ch hd
    simp [mkdirAllR, hd]
  · intro e a a' b b' st2 ch
    rfl
  · intro e a b fi ch hd
    simp [mkdirAllR, hd]
  · intro e a b st2e ch
    rfl
  · intro fuel fs dir mode hl
    simp only [mkdirAll, hl]
    split
    · simp
    · split
      · simp
      · simp

/-- Witness for C8: the race branch at concrete responses — the initial
stat failed, the `Mkdir` reported an error (a concurrent caller won), yet
the re-stat sees a directory and the call succeeds. -/
theorem claim_c8_mkdir_race_witness :
    mkdirAllR (.error noSuchFileErr) (some (GoErr.msg "parent failed"))
      (some openExclErr) (.ok ⟨true, [], 0o755⟩) none = none :=
  claim_c8_mkdir_race.2.2.2.1 noSuchFileErr (some (GoErr.msg "parent failed"))
    (some openExclErr) ⟨true, [], 0o755⟩ none (by decide)

/-! ### Claim C9 -/

/-- C9: `List` on a collection whose top-level enumeration fails yields
zero items and no error; for Data, a shard whose enumeration fails
contributes zero items without aborting the remaining shards (the result
is the in-order concatenation of the per-shard contributions, a failing
shard contributing the empty list); a successful single-level enumeration
yields exactly its entries. -/
theorem claim_c9_list_errors :
    (∀ (t : FileType) (p : String) (f : String → Option (List String)),
      f (dirname p ⟨t, ""⟩) = none → ListB t p f = [])
    ∧ (∀ (p : String) (f : String → Option (List String)) (dirs : List String),
      f (dirname p ⟨DataFile, ""⟩) = some dirs →
      ListB DataFile p f
        = dirs.foldr (fun d acc =>
            (f (Join [dirname p ⟨DataFile, ""⟩, d])).getD [] ++ acc) [])
    ∧ (∀ (t : FileType) (p : String) (f : String → Option (List String))
        (items : List String), t ≠ DataFile →
      f (dirname p ⟨t, ""⟩) = some items → ListB t p f = items) := by
  refine ⟨?_, ?_, ?_⟩
  · intro t p f hf
    by_cases ht : t = DataFile
    · subst ht
      simp [ListB, hf]
    · simp [ListB, ht, hf]
  · intro p f dirs hf
    simp only [ListB, if_true, hf]
    clear hf
    induction dirs with
    | nil => rfl
    | cons d rest ih =>
      rw [List.foldr_cons, List.foldr_cons, ih]
      cases hfd : f (Join [dirname p ⟨DataFile, ""⟩, d]) <;> simp [hfd]
  · intro t p f items ht hf
    simp [ListB, ht, hf]

/-- Witness for C9: a data listing where the top level is absent, and one
where a shard read fails. -/
theorem claim_c9_list_errors_witness :
    ListB DataFile "/r" (fun _ => none) = []
    ∧ ListB SnapshotFile "/r"
        (fun d => if d = "/r/snapshots" then some ["s1", "s2"] else none)
        = ["s1", "s2"] :=
  ⟨claim_c9_list_errors.1 DataFile "/r" (fun _ => none) rfl,
   claim_c9_list_errors.2.2 SnapshotFile "/r"
     (fun d => if d = "/r/snapshots" then some ["s1", "s2"] else none)
     ["s1", "s2"] (by decide) (by decide)⟩

/-! ### Claim C10 -/

/-- C10: on a non-nil backend, `Close` never returns the session-close
error: its result is the exit-signal error when that arrives within the
timeout, otherwise the kill error, and `nil` after a successful kill —
for every value of the discarded session-close error. -/
theorem claim_c10_close_result (c : Option GoErr) (r : Option (Option GoErr))
    (k : Option GoErr) :
    CloseB false c r k = r.getD k := by
  cases r with
  | some e => rfl
  | none => cases k <;> rfl

end Sftp
